import Mathlib

/-
Verification of the catalog-unifier script (src/data/unificador de catalogos.py).
The core functions of the script are embedded as executable Lean definitions over
List Char, and the stated properties of the scanner, bracket matcher, comment
stripper, key-anchored locator and lenient normalizer are proved or refuted below.
-/

namespace Unificador

/-- Scan state threaded through the scanners of the script: the three locals
in_string, string_char and escape shared by find_matching_bracket and
remove_js_comments. -/
structure ScanSt where
  in_string : Bool
  string_char : Option Char
  escape : Bool
deriving DecidableEq

/-- Initial scan state: not inside a string, no delimiter, no pending escape. -/
def initSt : ScanSt := ⟨false, none, false⟩

/-- Error outcomes of find_matching_bracket, one per raise site of the source:
invalidStart for the start-character check, unbalancedPop for a closer on an
empty stack, mismatched for a closer of the wrong kind, noMatchingBracket for
reaching end of text with open brackets outstanding, and indexErr for a start
index outside the text (the IndexError Python raises on s[start_index]). -/
inductive BracketErr where
  | invalidStart
  | unbalancedPop
  | mismatched
  | noMatchingBracket
  | indexErr
deriving DecidableEq

/-- Main loop of find_matching_bracket (source lines 18-46): one character per
step, carrying the current index, the bracket stack and the string/escape
state exactly as the Python while-loop does.  Note the source tests the
backslash before testing in_string, so a backslash outside a string also sets
the escape flag. -/
def fmbLoop : List Char → Nat → List Char → Bool → Option Char → Bool → Except BracketErr Nat
  | [], _, _, _, _, _ => .error .noMatchingBracket
  | ch :: rest, i, stack, instr, sc, esc =>
    if esc then fmbLoop rest (i + 1) stack instr sc false
    else if ch = '\\' then fmbLoop rest (i + 1) stack instr sc true
    else if instr then
      if some ch = sc then fmbLoop rest (i + 1) stack false none false
      else fmbLoop rest (i + 1) stack instr sc false
    else if ch = '"' ∨ ch = '\'' then fmbLoop rest (i + 1) stack true (some ch) false
    else if ch = '[' ∨ ch = '{' then fmbLoop rest (i + 1) (ch :: stack) instr sc false
    else if ch = ']' ∨ ch = '}' then
      match stack with
      | [] => .error .unbalancedPop
      | top :: stack2 =>
        if (top = '[' ∧ ¬ ch = ']') ∨ (top = '{' ∧ ¬ ch = '}') then .error .mismatched
        else
          match stack2 with
          | [] => .ok i
          | _ :: _ => fmbLoop rest (i + 1) stack2 instr sc false
    else fmbLoop rest (i + 1) stack instr sc false

/-- Embedding of find_matching_bracket (source lines 14-47): checks the start
character is an opening bracket, seeds the stack with it and scans forward. -/
def find_matching_bracket (s : List Char) (start : Nat) : Except BracketErr Nat :=
  match s.get? start with
  | none => .error .indexErr
  | some opening =>
    if opening = '[' ∨ opening = '{' then
      fmbLoop (s.drop (start + 1)) (start + 1) [opening] false none false
    else .error .invalidStart

/-- Skip of a line comment in remove_js_comments (source lines 91-95): advance
until a carriage return or newline, which is left in place and re-processed. -/
def dropLineComment : List Char → List Char
  | [] => []
  | c :: rest => if c = '\r' ∨ c = '\n' then c :: rest else dropLineComment rest

/-- Skip of a block comment in remove_js_comments (source lines 97-101): the
inner while-loop advances while i+1 < n and the terminator has not been found;
when the terminator is found both its characters are consumed, and when the
loop stops because only one character remains that character is left to be
re-processed by the outer loop (the i += 2 if i+1 < n else 0 of the source). -/
def skipBlockComment : List Char → List Char
  | [] => []
  | [c] => [c]
  | c1 :: c2 :: rest =>
    if c1 = '*' ∧ c2 = '/' then rest else skipBlockComment (c2 :: rest)

/-- Main loop of remove_js_comments (source lines 54-107), driven by a fuel
counter that dominates the number of iterations (each iteration consumes at
least one character, so fuel equal to the length of the input suffices). -/
def rjcAux : Nat → ScanSt → List Char → List Char
  | 0, _, _ => []
  | _ + 1, _, [] => []
  | f + 1, st, c :: rest =>
    if st.escape then c :: rjcAux f ⟨st.in_string, st.string_char, false⟩ rest
    else if st.in_string then
      if c = '\\' then c :: rjcAux f ⟨st.in_string, st.string_char, true⟩ rest
      else if some c = st.string_char then c :: rjcAux f ⟨false, none, false⟩ rest
      else c :: rjcAux f st rest
    else if c = '"' ∨ c = '\'' then c :: rjcAux f ⟨true, some c, false⟩ rest
    else if c = '/' ∧ rest.head? = some '/' then rjcAux f st (dropLineComment rest.tail)
    else if c = '/' ∧ rest.head? = some '*' then rjcAux f st (skipBlockComment rest.tail)
    else c :: rjcAux f st rest

/-- Embedding of remove_js_comments (source lines 49-107). -/
def remove_js_comments (l : List Char) : List Char := rjcAux l.length initSt l

/-- Python regex class backslash-s restricted to ASCII: space, tab, newline,
carriage return, vertical tab and form feed. -/
def isPyWs (c : Char) : Bool :=
  c == ' ' || c == '\t' || c == '\n' || c == '\r' || c == Char.ofNat 11 || c == Char.ofNat 12

/-- Scan for the substitution re.sub of comma + whitespace + closer by the
closer (source line 113).  The regex is deterministic: a match at a comma
exists exactly when the first non-whitespace character after it is a closing
bracket, and scanning resumes after the closer. -/
def rtcAux : Nat → List Char → List Char
  | 0, _ => []
  | _ + 1, [] => []
  | f + 1, c :: rest =>
    if c = ',' then
      match rest.dropWhile isPyWs with
      | b :: rest2 =>
        if b = ']' ∨ b = '}' then b :: rtcAux f rest2 else c :: rtcAux f rest
      | [] => c :: rtcAux f rest
    else c :: rtcAux f rest

/-- Trailing-comma removal, the second half of clean_js_array_to_json_array. -/
def removeTrailingCommas (l : List Char) : List Char := rtcAux l.length l

/-- Embedding of clean_js_array_to_json_array (source lines 109-114). -/
def clean_js_array_to_json_array (l : List Char) : List Char :=
  removeTrailingCommas (remove_js_comments l)

/-- Lookbehind class of the stage-3 quote rewrite: colon or whitespace. -/
def isS3Pre (c : Char) : Bool := c == ':' || isPyWs c

/-- Lookahead class of the stage-3 quote rewrite: comma or closing bracket. -/
def isS3Post (c : Char) : Bool := c == ',' || c == ']' || c == '}'

/-- Test of the stage-3 lookbehind on the character preceding the current
position (no match at the very start of the text). -/
def prevOkS3 : Option Char → Bool
  | some p => isS3Pre p
  | none => false

/-- Scan for the stage-3 substitution of parse_js_array (source line 121): a
single quote preceded by colon or whitespace, a run of non-quote characters,
a single quote, with a comma or closer following, is rewritten with double
quotes.  The regex is deterministic (the content class excludes the quote),
matches are found left to right in the original text, and scanning resumes
after the closing quote of a match. -/
def s3Aux : Nat → Option Char → List Char → List Char
  | 0, _, _ => []
  | _ + 1, _, [] => []
  | f + 1, prev, c :: rest =>
    if c = '\'' ∧ prevOkS3 prev then
      match rest.dropWhile (fun x => ¬ x = '\'') with
      | _ :: after =>
        match after with
        | a :: _ =>
          if isS3Post a then
            '"' :: (rest.takeWhile (fun x => ¬ x = '\'') ++ '"' :: s3Aux f (some '\'') after)
          else c :: s3Aux f (some c) rest
        | [] => c :: s3Aux f (some c) rest
      | [] => c :: s3Aux f (some c) rest
    else c :: s3Aux f (some c) rest

/-- Stage-3 rewrite of parse_js_array: single-quoted values into double-quoted
form (the first fallback substitution, source line 121). -/
def stage3 (l : List Char) : List Char := s3Aux l.length none l

/-- Word characters of the stage-4 key-quoting regex. -/
def isWordChar (c : Char) : Bool :=
  ('a' ≤ c ∧ c ≤ 'z') ∨ ('A' ≤ c ∧ c ≤ 'Z') ∨ ('0' ≤ c ∧ c ≤ '9') ∨ c = '_'

/-- Leading identifier characters of the stage-4 key-quoting regex. -/
def isIdentStart (c : Char) : Bool :=
  ('a' ≤ c ∧ c ≤ 'z') ∨ ('A' ≤ c ∧ c ≤ 'Z') ∨ c = '_'

/-- Word-boundary test of the stage-4 regex: satisfied at the start of the
text or when the preceding character is not a word character. -/
def prevOkQk : Option Char → Bool
  | some p => ! isWordChar p
  | none => true

/-- Scan for the quote_keys substitution of parse_js_array (source lines
126-129): a word-boundary-anchored identifier, optional whitespace, then a
colon, rewritten as the quoted identifier followed directly by the colon.
The regex is deterministic (maximal identifier run, maximal whitespace run),
and scanning resumes after the colon of a match. -/
def qkAux : Nat → Option Char → List Char → List Char
  | 0, _, _ => []
  | _ + 1, _, [] => []
  | f + 1, prev, c :: rest =>
    if isIdentStart c ∧ prevOkQk prev then
      match (rest.dropWhile isWordChar).dropWhile isPyWs with
      | ':' :: after =>
        '"' :: c :: (rest.takeWhile isWordChar ++ '"' :: ':' :: qkAux f (some ':') after)
      | _ => c :: qkAux f (some c) rest
    else c :: qkAux f (some c) rest

/-- Embedding of quote_keys, the stage-4 rewrite of parse_js_array. -/
def quote_keys (l : List Char) : List Char := qkAux l.length none l

/-- Structured values produced by json.loads: null, booleans, numbers (kept as
the raw numeric token), strings, arrays and objects with insertion-ordered
keys. -/
inductive Jv where
  | null
  | bool (b : Bool)
  | num (raw : List Char)
  | str (s : List Char)
  | arr (xs : List Jv)
  | obj (kvs : List (List Char × Jv))

/-- Whitespace skipped by the JSON decoder: space, tab, newline, carriage
return. -/
def skipWs (l : List Char) : List Char :=
  l.dropWhile (fun c => c == ' ' || c == '\t' || c == '\n' || c == '\r')

/-- Value of a hexadecimal digit, used for backslash-u escapes. -/
def hexVal (c : Char) : Option Nat :=
  if '0' ≤ c ∧ c ≤ '9' then some (c.toNat - '0'.toNat)
  else if 'a' ≤ c ∧ c ≤ 'f' then some (c.toNat - 'a'.toNat + 10)
  else if 'A' ≤ c ∧ c ≤ 'F' then some (c.toNat - 'A'.toNat + 10)
  else none

/-- Single-character escapes of JSON string literals. -/
def escChar : Char → Option Char
  | '"' => some '"'
  | '\\' => some '\\'
  | '/' => some '/'
  | 'b' => some (Char.ofNat 8)
  | 'f' => some (Char.ofNat 12)
  | 'n' => some '\n'
  | 'r' => some '\r'
  | 't' => some '\t'
  | _ => none

/-- Prefix a character onto the string being decoded. -/
def consStr (c : Char) : Except String (List Char × List Char) → Except String (List Char × List Char)
  | .ok (s, r) => .ok (c :: s, r)
  | .error e => .error e

/-- Decoder for the body of a JSON string literal, after the opening double
quote: strict mode, so unescaped control characters are rejected, as are
single-character escapes outside the JSON set.  Returns the decoded
characters and the remainder after the closing quote. -/
def parseJString : List Char → Except String (List Char × List Char)
  | [] => .error "Unterminated string"
  | '"' :: rest => .ok ([], rest)
  | '\\' :: rest =>
    match rest with
    | [] => .error "Unterminated string"
    | 'u' :: h1 :: h2 :: h3 :: h4 :: rest6 =>
      match hexVal h1, hexVal h2, hexVal h3, hexVal h4 with
      | some a, some b, some c, some d =>
        consStr (Char.ofNat (((a * 16 + b) * 16 + c) * 16 + d)) (parseJString rest6)
      | _, _, _, _ => .error "Invalid hex escape"
    | 'u' :: _ => .error "Invalid hex escape"
    | e :: rest2 =>
      match escChar e with
      | some ch => consStr ch (parseJString rest2)
      | none => .error "Invalid escape"
  | c :: rest =>
    if c.toNat < 32 then .error "Invalid control character"
    else consStr c (parseJString rest)

/-- Assembly of a numeric token per the decoder's number regex: an integer
part already consumed, then an optional fraction (a dot followed by at least
one digit) and an optional exponent; groups that fail to match are simply not
consumed. -/
def finishNum (sgn intp : List Char) (rest : List Char) : Jv × List Char :=
  let fr : List Char × List Char :=
    match rest with
    | '.' :: r2 =>
      if (r2.takeWhile Char.isDigit).isEmpty then ([], rest)
      else ('.' :: r2.takeWhile Char.isDigit, r2.dropWhile Char.isDigit)
    | _ => ([], rest)
  let ex : List Char × List Char :=
    match fr.2 with
    | e :: r2 =>
      if e = 'e' ∨ e = 'E' then
        match r2 with
        | s :: r3 =>
          if s = '+' ∨ s = '-' then
            if (r3.takeWhile Char.isDigit).isEmpty then ([], fr.2)
            else (e :: s :: r3.takeWhile Char.isDigit, r3.dropWhile Char.isDigit)
          else
            if (r2.takeWhile Char.isDigit).isEmpty then ([], fr.2)
            else (e :: r2.takeWhile Char.isDigit, r2.dropWhile Char.isDigit)
        | [] => ([], fr.2)
      else ([], fr.2)
    | [] => ([], fr.2)
  (.num (sgn ++ intp ++ fr.1 ++ ex.1), ex.2)

/-- Decoder for a JSON number at the head of the input: optional minus sign,
then a zero or a nonzero-led digit run, then optional fraction and exponent. -/
def parseNumber (l : List Char) : Except String (Jv × List Char) :=
  let sp : List Char × List Char :=
    match l with
    | '-' :: r => (['-'], r)
    | _ => ([], l)
  match sp.2 with
  | '0' :: r => .ok (finishNum sp.1 ['0'] r)
  | c :: r =>
    if c.isDigit then
      .ok (finishNum sp.1 (c :: r.takeWhile Char.isDigit) (r.dropWhile Char.isDigit))
    else .error "Expecting value"
  | [] => .error "Expecting value"

/-- Insertion of a key/value pair into an object under dict semantics: an
existing key keeps its position and takes the new value, a new key is
appended. -/
def objInsert : List (List Char × Jv) → List Char → Jv → List (List Char × Jv)
  | [], k, v => [(k, v)]
  | (k0, v0) :: rest, k, v =>
    if k0 = k then (k0, v) :: rest else (k0, v0) :: objInsert rest k v

/-- Work requests of the JSON decoder: a value to parse, or the element loop
of an array or object in progress. -/
inductive JReq where
  | val (l : List Char)
  | arrLoop (acc : List Jv) (l : List Char)
  | objLoop (acc : List (List Char × Jv)) (l : List Char)

/-- Recursive-descent JSON decoder, fuelled (each step consumes input or
descends into a value, so linear fuel suffices).  This models the strict-mode
json.loads of the Python standard library on the JSON grammar: double-quoted
strings only, no trailing commas, object keys double-quoted; the NaN and
Infinity constants accepted by the library are not modelled (they do not
occur in any input considered here). -/
def jstep : Nat → JReq → Except String (Jv × List Char)
  | 0, _ => .error "out of fuel"
  | f + 1, .val l =>
    match l with
    | [] => .error "Expecting value"
    | c :: rest =>
      if c = '"' then
        match parseJString rest with
        | .ok (s, r) => .ok (.str s, r)
        | .error e => .error e
      else if c = '{' then
        match skipWs rest with
        | '}' :: rest2 => .ok (.obj [], rest2)
        | r => jstep f (.objLoop [] r)
      else if c = '[' then
        match skipWs rest with
        | ']' :: rest2 => .ok (.arr [], rest2)
        | r => jstep f (.arrLoop [] r)
      else if c = 't' then
        match rest with
        | 'r' :: 'u' :: 'e' :: r => .ok (.bool true, r)
        | _ => .error "Expecting value"
      else if c = 'f' then
        match rest with
        | 'a' :: 'l' :: 's' :: 'e' :: r => .ok (.bool false, r)
        | _ => .error "Expecting value"
      else if c = 'n' then
        match rest with
        | 'u' :: 'l' :: 'l' :: r => .ok (.null, r)
        | _ => .error "Expecting value"
      else if c = '-' ∨ c.isDigit then parseNumber (c :: rest)
      else .error "Expecting value"
  | f + 1, .arrLoop acc l =>
    match jstep f (.val l) with
    | .error e => .error e
    | .ok (v, rest) =>
      match skipWs rest with
      | ']' :: rest2 => .ok (.arr (acc ++ [v]), rest2)
      | ',' :: rest2 => jstep f (.arrLoop (acc ++ [v]) (skipWs rest2))
      | _ => .error "Expecting delimiter"
  | f + 1, .objLoop acc l =>
    match l with
    | '"' :: rest =>
      match parseJString rest with
      | .error e => .error e
      | .ok (k, rest2) =>
        match skipWs rest2 with
        | ':' :: rest3 =>
          match jstep f (.val (skipWs rest3)) with
          | .error e => .error e
          | .ok (v, rest4) =>
            match skipWs rest4 with
            | '}' :: rest5 => .ok (.obj (objInsert acc k v), rest5)
            | ',' :: rest5 => jstep f (.objLoop (objInsert acc k v) (skipWs rest5))
            | _ => .error "Expecting delimiter"
        | _ => .error "Expecting colon delimiter"
    | _ => .error "Expecting property name enclosed in double quotes"

/-- Embedding of json.loads: skip leading whitespace, decode one value, and
require that only whitespace remains. -/
def json_loads (l : List Char) : Except String Jv :=
  match jstep (4 * l.length + 16) (.val (skipWs l)) with
  | .error e => .error e
  | .ok (v, rest) => if (skipWs rest).isEmpty then .ok v else .error "Extra data"

/-- Embedding of parse_js_array (source lines 116-136): clean, strict parse,
then the stage-3 quote rewrite and retry, then the stage-4 key quoting and
retry, and a descriptive failure when all stages fail. -/
def parse_js_array (l : List Char) : Except String Jv :=
  let cleaned := clean_js_array_to_json_array l
  match json_loads cleaned with
  | .ok v => .ok v
  | .error _ =>
    let alt := stage3 cleaned
    match json_loads alt with
    | .ok v => .ok v
    | .error _ =>
      let alt2 := quote_keys alt
      match json_loads alt2 with
      | .ok v => .ok v
      | .error e2 => .error ("Failed to parse JSON array: " ++ e2)

/-- Match of the first locator pattern of extract_array_by_key (source line
143) at the head of the text: the key as a literal substring, optional
whitespace, a colon, optional whitespace, an opening square bracket.  Returns
the offset of the bracket when the pattern matches here.  The regex is
deterministic: the whitespace runs are maximal and cannot backtrack into a
colon or bracket. -/
def pat1At (key : List Char) (l : List Char) : Option Nat :=
  if l.take key.length = key then
    let r1 := l.drop key.length
    match r1.dropWhile isPyWs with
    | ':' :: r3 =>
      match r3.dropWhile isPyWs with
      | '[' :: _ =>
        some (key.length + (r1.takeWhile isPyWs).length + 1 + (r3.takeWhile isPyWs).length)
      | _ => none
    | _ => none
  else none

/-- Match of the second locator pattern of extract_array_by_key at the head of
the text: a single or double quote, the key, a single or double quote,
optional whitespace, a colon, optional whitespace, an opening square
bracket. -/
def pat2At (key : List Char) (l : List Char) : Option Nat :=
  match l with
  | q1 :: r0 =>
    if q1 = '"' ∨ q1 = '\'' then
      if r0.take key.length = key then
        match r0.drop key.length with
        | q2 :: r1 =>
          if q2 = '"' ∨ q2 = '\'' then
            match r1.dropWhile isPyWs with
            | ':' :: r3 =>
              match r3.dropWhile isPyWs with
              | '[' :: _ =>
                some (key.length + 2 + (r1.takeWhile isPyWs).length + 1
                  + (r3.takeWhile isPyWs).length)
              | _ => none
            | _ => none
          else none
        | [] => none
      else none
    else none
  | [] => none

/-- Leftmost-match search of re.search: try the pattern at each successive
start position and return the absolute index of the opening bracket of the
first match. -/
def searchFrom (p : List Char → Option Nat) : Nat → Nat → List Char → Option Nat
  | 0, _, _ => none
  | _ + 1, _, [] => none
  | f + 1, i, c :: rest =>
    match p (c :: rest) with
    | some off => some (i + off)
    | none => searchFrom p f (i + 1) rest

/-- Search of a whole text for the first match of a pattern. -/
def re_search (p : List Char → Option Nat) (l : List Char) : Option Nat :=
  searchFrom p l.length 0 l

/-- One pattern attempt of extract_array_by_key: given the bracket position of
a regex match (if any), run find_matching_bracket from it and return the
bracketed span inclusive; a bracket-matching error is caught and turned into
none, which sends the caller on to the next pattern (the except/continue of
source lines 150-154). -/
def tryPattern (text : List Char) (ob : Option Nat) : Option (List Char) :=
  match ob with
  | none => none
  | some b =>
    match find_matching_bracket text b with
    | .ok e => some ((text.drop b).take (e + 1 - b))
    | .error _ => none

/-- Embedding of extract_array_by_key (source lines 138-155): the bare-key
pattern is tried first, then the quoted-key pattern, and None is returned
when both fail.  In the source the bracket position is js_text.find of an
opening bracket starting at m.end()-1; since both patterns end on the opening
bracket itself, that find returns exactly the matched bracket position, which
is what the search functions above return. -/
def extract_array_by_key (text key : List Char) : Option (List Char) :=
  match tryPattern text (re_search (pat1At key) text) with
  | some r => some r
  | none => tryPattern text (re_search (pat2At key) text)

/-- One step of the string/escape tracking discipline shared by the scanners
of the source (the in_string, string_char and escape updates of
remove_js_comments, lines 60-88): used below to say which positions of a text
lie inside a string literal. -/
def stepStr (st : ScanSt) (c : Char) : ScanSt :=
  if st.escape then ⟨st.in_string, st.string_char, false⟩
  else if st.in_string then
    if c = '\\' then ⟨st.in_string, st.string_char, true⟩
    else if some c = st.string_char then ⟨false, none, false⟩
    else st
  else if c = '"' ∨ c = '\'' then ⟨true, some c, false⟩
  else st

/-- Scan state reached just before position i of a text, per the string
discipline of the source scanners. -/
def stateBefore (l : List Char) (i : Nat) : ScanSt :=
  (l.take i).foldl stepStr initSt

/-- Position i of a text lies inside double-quoted string content when the
state just before it is in-string with the double quote as delimiter. -/
def insideDoubleQuoted (l : List Char) (i : Nat) : Bool :=
  (stateBefore l i).in_string && ((stateBefore l i).string_char == some '"')

/-- Predicate on a text: no line-comment or block-comment opener occurs
outside a string literal, tracked with the same branch structure as the
remove_js_comments scan. -/
def noMarkersFrom : ScanSt → List Char → Bool
  | _, [] => true
  | st, c :: rest =>
    if st.escape then noMarkersFrom ⟨st.in_string, st.string_char, false⟩ rest
    else if st.in_string then
      if c = '\\' then noMarkersFrom ⟨st.in_string, st.string_char, true⟩ rest
      else if some c = st.string_char then noMarkersFrom ⟨false, none, false⟩ rest
      else noMarkersFrom st rest
    else if c = '"' ∨ c = '\'' then noMarkersFrom ⟨true, some c, false⟩ rest
    else if c = '/' ∧ rest.head? = some '/' then false
    else if c = '/' ∧ rest.head? = some '*' then false
    else noMarkersFrom st rest

/-- The end-to-end scenario text of the specification: a constant binding an
object whose maydayEpisodes key holds an array of two object literals with
single-quoted and double-quoted values, a block comment between them, and a
trailing comma. -/
def c1Text : List Char :=
  ['c','o','n','s','t',' ','d','a','t','a',' ','=',' ','{',' ',
   'm','a','y','d','a','y','E','p','i','s','o','d','e','s',':',' ','[',' ',
   '{','u','r','l',':','\'','x','\'',',',' ','t','i','t','l','e',':','"','A','"','}',',',' ',
   '/','*',' ','n','o','t','e',' ','*','/',' ',
   '{','u','r','l',':','\'','y','\'',',',' ','t','i','t','l','e',':','\'','B','\'','}',',',' ',']',' ','}',';']

/-- The bracketed span of the maydayEpisodes array inside the scenario text,
brackets included. -/
def c1Span : List Char :=
  ['[',' ',
   '{','u','r','l',':','\'','x','\'',',',' ','t','i','t','l','e',':','"','A','"','}',',',' ',
   '/','*',' ','n','o','t','e',' ','*','/',' ',
   '{','u','r','l',':','\'','y','\'',',',' ','t','i','t','l','e',':','\'','B','\'','}',',',' ',']']

/-- A text that is a single bracketed array holding one double-quoted string
whose content contains a single-quoted run preceded by a space and followed
by a comma. -/
def c5ex : List Char := ['[','"','a',' ','\'','b','\'',',','c','"',']']

/-- The stage-3 rewrite of that text: the single quotes inside the
double-quoted string have been replaced by double quotes. -/
def c5out : List Char := ['[','"','a',' ','"','b','"',',','c','"',']']

/-- Claim C1: for the scenario text and key maydayEpisodes, the locator
returns exactly the bracketed span of the array, and parse_js_array on that
span (comment stripping, trailing-comma removal, quote and key
normalization) returns the ordered sequence of the two expected mappings. -/
theorem end_to_end_extract_and_parse :
    extract_array_by_key c1Text ("maydayEpisodes".toList) = some c1Span
    ∧ parse_js_array c1Span =
      .ok (.arr
        [.obj [("url".toList, .str ("x".toList)), ("title".toList, .str ("A".toList))],
         .obj [("url".toList, .str ("y".toList)), ("title".toList, .str ("B".toList))]]) :=
  ⟨rfl, rfl⟩

/-- Counterexample to claim C2: on the text of the claim the bare-key pattern
is found (the bracket sits at index 3), find_matching_bracket fails on the
unbalanced array, and yet extract_array_by_key answers none, the not-found
signal: the bracket error has been silently converted, contradicting the
claim that it is always propagated. -/
theorem bracket_error_becomes_not_found_cex :
    re_search (pat1At ("k".toList)) ("k: [1, 2".toList) = some 3
    ∧ find_matching_bracket ("k: [1, 2".toList) 3 = .error .noMatchingBracket
    ∧ extract_array_by_key ("k: [1, 2".toList) ("k".toList) = none :=
  ⟨rfl, rfl, rfl⟩

/-- Claim C2 as amended: when the bare-key pattern matches but bracket
matching fails with any error, and the quoted-key pattern finds no match,
extract_array_by_key catches the bracket error and returns the not-found
signal; bracket errors arising below the locator are never propagated to its
caller. -/
theorem extract_swallows_bracket_error (text key : List Char) (b : Nat) (err : BracketErr)
    (h1 : re_search (pat1At key) text = some b)
    (h2 : find_matching_bracket text b = .error err)
    (h3 : re_search (pat2At key) text = none) :
    extract_array_by_key text key = none := by
  simp only [extract_array_by_key, tryPattern, h1, h2, h3]

/-- Witness for the amended claim C2 at the concrete input of the claim. -/
theorem extract_swallows_bracket_error_witness :
    (re_search (pat1At ("k".toList)) ("k: [1, 2".toList) = some 3
     ∧ find_matching_bracket ("k: [1, 2".toList) 3 = .error .noMatchingBracket
     ∧ re_search (pat2At ("k".toList)) ("k: [1, 2".toList) = none)
    ∧ extract_array_by_key ("k: [1, 2".toList) ("k".toList) = none :=
  ⟨⟨rfl, rfl, rfl⟩, extract_swallows_bracket_error _ _ 3 .noMatchingBracket rfl rfl rfl⟩

/-- Claim C3 (evaluation at the failing input): on a text that is an
unterminated block comment opener followed by three characters, the stripper
keeps the final character of the text instead of dropping everything from the
opener: the inner skip loop stops one character short of the end and the
outer loop re-processes that character. -/
theorem unterminated_block_comment_keeps_last_char :
    remove_js_comments ("/*abc".toList) = "c".toList
    ∧ ¬ remove_js_comments ("/*abc".toList) = ([] : List Char) :=
  ⟨rfl, by decide⟩

/-- Counterexample to claim C4: extracting key videos from a text whose only
binding is myvideos: [1] returns the span of that array rather than the
not-found signal, because the bare-key pattern has no word boundary and
matches the key as a suffix of the longer identifier. -/
theorem locator_key_suffix_cex :
    extract_array_by_key ("myvideos: [1]".toList) ("videos".toList) = some ("[1]".toList)
    ∧ ¬ extract_array_by_key ("myvideos: [1]".toList) ("videos".toList) = none :=
  ⟨rfl, by decide⟩

/-- Claim C4 as amended: the locator matches the bare-identifier pattern as a
literal substring with no word-boundary anchoring, so a key occurring as a
suffix of a longer identifier is matched and its span returned; the
not-found signal is produced when neither pattern occurs, as on a text with
no colon-bracket binding at all. -/
theorem locator_matches_key_suffix :
    extract_array_by_key ("myvideos: [1]".toList) ("videos".toList) = some ("[1]".toList)
    ∧ extract_array_by_key ("nothing".toList) ("videos".toList) = none :=
  ⟨rfl, rfl⟩

/-- Counterexample to claim C5: position 4 of the text c5ex lies strictly
inside double-quoted string content and holds a single quote, yet the
stage-3 rewrite changes the character at that position to a double quote:
the rewrite does alter characters inside already-double-quoted content. -/
theorem stage3_scoping_cex :
    insideDoubleQuoted c5ex 4 = true
    ∧ c5ex.get? 4 = some '\''
    ∧ (stage3 c5ex).get? 4 = some '"' :=
  ⟨rfl, rfl, rfl⟩

/-- Claim C5 as amended: the stage-3 rewrite is a purely textual substitution
with no string-state scoping: a single-quoted run preceded by a colon or
whitespace and followed by a comma or closer is rewritten into double-quoted
form even when it lies inside a double-quoted string, as on c5ex where the
rewritten positions 4 through 6 all lie inside the double-quoted string. -/
theorem stage3_rewrites_inside_double_quotes :
    stage3 c5ex = c5out
    ∧ insideDoubleQuoted c5ex 4 = true
    ∧ insideDoubleQuoted c5ex 5 = true
    ∧ insideDoubleQuoted c5ex 6 = true :=
  ⟨rfl, rfl, rfl, rfl⟩

/-- Counterexample to claim C8: in find_matching_bracket a backslash outside
any string does affect the scan state: with a backslash at position 1 the
closing bracket at position 2 is skipped and the match lands on position 3,
while with an ordinary character at position 1 the bracket at position 2 is
the match. -/
theorem escape_outside_string_skips_cex :
    find_matching_bracket ("[\\]]".toList) 0 = .ok 3
    ∧ find_matching_bracket ("[x]]".toList) 0 = .ok 2 :=
  ⟨rfl, rfl⟩

/-- Claim C9: the stage-1 trailing-comma removal is not string-aware.  The
text is a strictly valid array of one string whose content holds a comma
followed by a space-free closer sequence: json.loads parses it directly with
the comma intact, but clean_js_array_to_json_array deletes the comma inside
the string literal, so parse_js_array succeeds and returns the string with
the comma removed. -/
theorem trailing_comma_removal_not_string_aware :
    json_loads ("[\"a ,]\"]".toList) = .ok (.arr [.str ("a ,]".toList)])
    ∧ clean_js_array_to_json_array ("[\"a ,]\"]".toList) = "[\"a ]\"]".toList
    ∧ parse_js_array ("[\"a ,]\"]".toList) = .ok (.arr [.str ("a ]".toList)]) :=
  ⟨rfl, rfl, rfl⟩

/-- The bracket-matching loop never produces the invalid-start error: that
error belongs to the start-character check alone. -/
theorem fmbLoop_ne_invalidStart :
    ∀ (l : List Char) (i : Nat) (stack : List Char) (instr : Bool) (sc : Option Char)
      (esc : Bool), fmbLoop l i stack instr sc esc ≠ .error .invalidStart := by
  intro l
  induction l with
  | nil => intro i stack instr sc esc; simp [fmbLoop]
  | cons c rest ih =>
    intro i stack instr sc esc
    simp only [fmbLoop]
    split_ifs with h1 h2 h3 h4 h5 h6 h7
    · apply ih
    · apply ih
    · apply ih
    · apply ih
    · apply ih
    · apply ih
    · cases stack with
      | nil => simp
      | cons top stack2 =>
        simp only
        split_ifs with hm
        · simp
        · cases stack2 with
          | nil => simp
          | cons a s => apply ih
    · apply ih

/-- Claim C6: on the mismatched input the matcher fails with the mismatched
error, on the unbalanced input it fails at end of text with open brackets
outstanding, and the invalid-start error occurs exactly when the character at
the start position is neither an opening square bracket nor an opening
brace. -/
theorem bracket_matcher_error_taxonomy :
    find_matching_bracket ['[', '1', ',', ' ', '2', '}'] 0 = .error .mismatched
    ∧ find_matching_bracket ['[', '1', ',', ' ', '2', ',', ' ', '{'] 0
        = .error .noMatchingBracket
    ∧ ∀ (s : List Char) (i : Nat) (c : Char), s.get? i = some c →
        (find_matching_bracket s i = .error .invalidStart ↔ ¬ (c = '[' ∨ c = '{')) := by
  refine ⟨rfl, rfl, ?_⟩
  intro s i c h
  have hrw : find_matching_bracket s i =
      (if c = '[' ∨ c = '{' then fmbLoop (s.drop (i + 1)) (i + 1) [c] false none false
       else .error .invalidStart) := by
    unfold find_matching_bracket
    rw [h]
  rw [hrw]
  by_cases hb : c = '[' ∨ c = '{'
  · rw [if_pos hb]
    exact iff_of_false (fmbLoop_ne_invalidStart _ _ _ _ _ _) (not_not_intro hb)
  · rw [if_neg hb]
    exact iff_of_true rfl hb

/-- Witness for claim C6 at a concrete non-bracket start character. -/
theorem bracket_matcher_error_taxonomy_witness :
    ("x".toList.get? 0 = some 'x')
    ∧ (find_matching_bracket ("x".toList) 0 = .error .invalidStart
        ↔ ¬ ('x' = '[' ∨ 'x' = '{')) :=
  ⟨rfl, bracket_matcher_error_taxonomy.2.2 ("x".toList) 0 'x' rfl⟩

/-- On a text with no comment markers outside strings, the stripping scan
reproduces its input, for any sufficient fuel. -/
theorem rjcAux_id :
    ∀ (l : List Char) (f : Nat) (st : ScanSt), l.length ≤ f →
      noMarkersFrom st l = true → rjcAux f st l = l := by
  intro l
  induction l with
  | nil => intro f st _ _; cases f <;> rfl
  | cons c rest ih =>
    intro f st hf hm
    cases f with
    | zero => simp at hf
    | succ f =>
      have hr : rest.length ≤ f := by
        simp only [List.length_cons] at hf
        omega
      simp only [noMarkersFrom] at hm
      simp only [rjcAux]
      split_ifs at hm ⊢ <;>
        first
          | simp at hm
          | rw [ih f _ hr hm]

/-- Claim C7: the comment stripper is the identity on any text with no
comment opener outside strings; whenever the scan state is inside a string
or escape-pending, the current character is emitted unchanged (so characters
strictly inside a quoted string are never altered); and stripping the text
consisting of the one double-quoted literal of the claim returns it
unchanged. -/
theorem comment_stripper_identity_and_string_preservation :
    (∀ l : List Char, noMarkersFrom initSt l = true → remove_js_comments l = l)
    ∧ (∀ (st : ScanSt) (c : Char) (rest : List Char) (f : Nat),
        st.in_string = true ∨ st.escape = true →
        ∃ st2, rjcAux (f + 1) st (c :: rest) = c :: rjcAux f st2 rest)
    ∧ remove_js_comments ("\"a // b /* c */ d\"".toList) = "\"a // b /* c */ d\"".toList := by
  refine ⟨fun l h => rjcAux_id l l.length initSt (le_refl _) h, ?_, rfl⟩
  intro st c rest f h
  by_cases he : st.escape = true
  · exact ⟨⟨st.in_string, st.string_char, false⟩, by simp [rjcAux, he]⟩
  · have hs : st.in_string = true := by
      rcases h with h | h
      · exact h
      · exact absurd h he
    by_cases hb : c = '\\'
    · exact ⟨⟨st.in_string, st.string_char, true⟩, by simp [rjcAux, he, hs, hb]⟩
    · by_cases hm : some c = st.string_char
      · exact ⟨⟨false, none, false⟩, by simp [rjcAux, he, hs, hb, hm]⟩
      · exact ⟨st, by simp [rjcAux, he, hs, hb, hm]⟩

/-- Witness for claim C7, discharging the no-marker hypothesis on a concrete
text and the in-string hypothesis at a concrete state. -/
theorem comment_stripper_identity_and_string_preservation_witness :
    (noMarkersFrom initSt ("ab".toList) = true
      ∧ remove_js_comments ("ab".toList) = "ab".toList)
    ∧ ((⟨true, some '"', false⟩ : ScanSt).in_string = true
        ∨ (⟨true, some '"', false⟩ : ScanSt).escape = true)
    ∧ (∃ st2, rjcAux 1 (⟨true, some '"', false⟩ : ScanSt) ['x'] = 'x' :: rjcAux 0 st2 []) :=
  ⟨⟨rfl, comment_stripper_identity_and_string_preservation.1 _ rfl⟩,
   Or.inl rfl,
   comment_stripper_identity_and_string_preservation.2.1 _ 'x' [] 0 (Or.inl rfl)⟩

/-- Claim C8 as amended: in remove_js_comments a backslash met outside a
string and with no pending escape is an ordinary character — it is emitted
and the scan state is unchanged — while in find_matching_bracket any
unescaped backslash, inside a string or not, sets the escape flag, so the
very next character is skipped with the stack and string state unchanged. -/
theorem escape_state_per_scanner :
    (∀ (f : Nat) (st : ScanSt) (rest : List Char),
        st.in_string = false → st.escape = false →
        rjcAux (f + 1) st ('\\' :: rest) = '\\' :: rjcAux f st rest)
    ∧ (∀ (l : List Char) (i : Nat) (stack : List Char) (c : Char),
        fmbLoop ('\\' :: c :: l) i stack false none false
          = fmbLoop l (i + 2) stack false none false) := by
  constructor
  · intro f st rest hin hesc
    simp [rjcAux, hin, hesc]
  · intro l i stack c
    rfl

/-- Witness for the amended claim C8 at concrete states and inputs. -/
theorem escape_state_per_scanner_witness :
    (rjcAux 1 initSt ['\\'] = '\\' :: rjcAux 0 initSt [])
    ∧ (fmbLoop ['\\', 'x'] 0 ['['] false none false = fmbLoop [] 2 ['['] false none false) :=
  ⟨escape_state_per_scanner.1 0 initSt [] rfl rfl,
   escape_state_per_scanner.2 [] 0 ['['] 'x'⟩

/-- Skipping to the end of a line comment yields a suffix of the input. -/
theorem dropLineComment_sublist : ∀ l : List Char, List.Sublist (dropLineComment l) l := by
  intro l
  induction l with
  | nil => exact List.Sublist.refl _
  | cons c rest ih =>
    simp only [dropLineComment]
    split_ifs with h
    · exact List.Sublist.refl _
    · exact ih.trans (List.sublist_cons_self c rest)

/-- Skipping past a block comment yields a sublist of the input. -/
theorem skipBlockComment_sublist : ∀ l : List Char, List.Sublist (skipBlockComment l) l := by
  intro l
  induction l with
  | nil => exact List.Sublist.refl _
  | cons c1 t ih =>
    cases t with
    | nil => exact List.Sublist.refl _
    | cons c2 rest =>
      simp only [skipBlockComment]
      split_ifs with h
      · exact (List.sublist_cons_self c2 rest).trans
          (List.sublist_cons_self c1 (c2 :: rest))
      · exact ih.trans (List.sublist_cons_self c1 (c2 :: rest))

/-- The stripping scan only ever deletes characters: its output is a sublist
of its input. -/
theorem rjcAux_sublist :
    ∀ (f : Nat) (st : ScanSt) (l : List Char), List.Sublist (rjcAux f st l) l := by
  intro f
  induction f with
  | zero => intro st l; exact List.nil_sublist l
  | succ f ih =>
    intro st l
    cases l with
    | nil => exact List.nil_sublist _
    | cons c rest =>
      simp only [rjcAux]
      split_ifs with h1 h2 h3 h4 h5 h6 h7 <;>
        first
          | exact List.Sublist.cons₂ c (ih _ _)
          | exact (ih _ _).trans ((dropLineComment_sublist rest.tail).trans
              ((List.tail_sublist rest).trans (List.sublist_cons_self c rest)))
          | exact (ih _ _).trans ((skipBlockComment_sublist rest.tail).trans
              ((List.tail_sublist rest).trans (List.sublist_cons_self c rest)))

/-- Claim C10: the output of remove_js_comments is a sublist of its input —
its characters are characters of the input taken at strictly increasing
positions, never reordered, duplicated or introduced — and so its length
never exceeds the input length. -/
theorem stripper_output_sublist :
    ∀ l : List Char, List.Sublist (remove_js_comments l) l
      ∧ (remove_js_comments l).length ≤ l.length :=
  fun l => ⟨rjcAux_sublist l.length initSt l, (rjcAux_sublist l.length initSt l).length_le⟩

end Unificador
